import Mathlib

/-!
Verification of the markupsafe core: the escape primitive (`_native.escape_inner`),
the `Markup` safe-string type and its operations (`markupsafe/__init__.py`), the
entity decoder, and the interpolation layers. Python `str` values are embedded as
`List Char`; Python's dynamic values are embedded as the inductive `PyVal`;
exceptions are embedded with `Except`.
-/

namespace MarkupSafe

/-- Python `str.replace(old, new)` for a single-character `old`: every
occurrence of the character `old` is replaced by the string `new`.
Occurrences of a single character never overlap, so Python's left-to-right
non-overlapping replacement is exactly this pointwise traversal. -/
def replaceChar (old : Char) (new : List Char) : List Char → List Char
  | [] => []
  | c :: cs => (if c = old then new else [c]) ++ replaceChar old new cs

/-- The entity text `&amp;` (source string literal "&amp;"). -/
def ampEnt : List Char := ['&', 'a', 'm', 'p', ';']

/-- The entity text `&gt;`. -/
def gtEnt : List Char := ['&', 'g', 't', ';']

/-- The entity text `&lt;`. -/
def ltEnt : List Char := ['&', 'l', 't', ';']

/-- The entity text `&#39;`. -/
def aposEnt : List Char := ['&', '#', '3', '9', ';']

/-- The entity text `&#34;`. -/
def quotEnt : List Char := ['&', '#', '3', '4', ';']

/-- `markupsafe._native.escape_inner`: the chained `str.replace` pipeline
`s.replace("&", "&amp;").replace(">", "&gt;").replace("<", "&lt;")
.replace("'", "&#39;").replace('"', "&#34;")`, applied in that order. -/
def escape_inner (s : List Char) : List Char :=
  replaceChar '"' quotEnt
    (replaceChar '\'' aposEnt
      (replaceChar '<' ltEnt
        (replaceChar '>' gtEnt
          (replaceChar '&' ampEnt s))))

/-- The per-character escape table of the spec (&, <, >, apostrophe, double
quote mapped to their entities, everything else unchanged). -/
def escapeChar (c : Char) : List Char :=
  if c = '&' then ampEnt
  else if c = '<' then ltEnt
  else if c = '>' then gtEnt
  else if c = '\'' then aposEnt
  else if c = '"' then quotEnt
  else [c]

/-- Pointwise escaping of a whole text: each character is sent through
`escapeChar`, everything is concatenated in the original order. -/
def escapeAll : List Char → List Char
  | [] => []
  | c :: cs => escapeChar c ++ escapeAll cs

/-- Python exception values: an exception object carrying a payload. Nothing
in the modelled code inspects the payload, so propagation "unmodified" is the
statement that the very same value is returned. -/
structure PyErr where
  msg : List Char
deriving DecidableEq

/-- A `Markup` instance: an immutable text plus the class it was constructed
through (`0` is the base `Markup` class, any other tag a subclass). The class
tag models Python's `self.__class__` / `cls`, through which every deriving
operation rebuilds its results. -/
structure Markup where
  cls : Nat
  content : List Char
deriving DecidableEq

/-- The universe of Python values the modelled operations receive: plain
`str`, `Markup` (sub)instances, capability objects (whose `__html__()` call
returns text or raises), `None`, `int`, tuples, dict-like mappings, and
objects with none of these interfaces (carrying their `str()` text). -/
inductive PyVal where
  | vstr (s : List Char)
  | vmarkup (m : Markup)
  | vhtml (h : Except PyErr (List Char))
  | vnone
  | vint (n : Int)
  | vtuple (xs : List PyVal)
  | vdict (entries : List (List Char × PyVal))
  | vother (s : List Char)

/-- Python `str(v)`. Container and capability values are given a placeholder
text: no modelled operation ever takes `str()` of them (`escape` and
`Markup.__new__` dispatch on the `__html__` capability before falling back to
`str`, and tuples/dicts reach only `%`-interpolation dispatch). -/
def pyStr : PyVal → List Char
  | .vstr s => s
  | .vmarkup m => m.content
  | .vhtml _ => []
  | .vnone => "None".toList
  | .vint n => (toString n).toList
  | .vtuple _ => []
  | .vdict _ => []
  | .vother s => s

/-- Python `hasattr(v, "__html__")`: true for `Markup` instances (which
define `__html__`, line 69) and for capability objects. -/
def hasHtml : PyVal → Bool
  | .vmarkup _ => true
  | .vhtml _ => true
  | _ => false

/-- Python `isinstance(v, str)`: plain strings and `Markup` (a `str`
subclass). -/
def isStr : PyVal → Bool
  | .vstr _ => true
  | .vmarkup _ => true
  | _ => false

/-- The outcome of `v.__html__()` when the attribute exists (`none`
otherwise). `Markup.__html__` returns `self` (lines 69-70), whose text is its
content; a capability object returns its stored outcome - a text or a raised
exception. -/
def callHtml : PyVal → Option (Except PyErr (List Char))
  | .vmarkup m => some (.ok m.content)
  | .vhtml h => some h
  | _ => none

/-- `Markup.__new__` (lines 58-67): if the object has `__html__`, the object
is first replaced by the result of calling it (an exception there
propagates); the new instance's text is the `str()` of the resulting object
and its class is the requested `cls`. The modelled calls never pass an
`encoding`, so the `encoding is None` branch applies. -/
def Markup.new (cls : Nat) (object : PyVal) : Except PyErr Markup :=
  match callHtml object with
  | some (.error e) => .error e
  | some (.ok s) => .ok ⟨cls, s⟩
  | none => .ok ⟨cls, pyStr object⟩

/-- Modelled from the spec: the module-level `escape` entry point.
`__init__.py` (lines 319-327) imports it from `._speedups`/`._native`, but
only `escape_inner` is present under `src`, so the entry point follows spec
section 4.2 word for word: if the value exposes the render-as-markup
capability, call it and wrap its result as safe WITHOUT running the escape
primitive (an exception from the capability propagates unmodified);
otherwise convert the value to text, run the escape primitive over it, and
wrap the result as safe. The wrapper is the base `Markup` class (tag 0). -/
def escape (v : PyVal) : Except PyErr Markup :=
  match callHtml v with
  | some (.error e) => .error e
  | some (.ok s) => .ok ⟨0, s⟩
  | none => .ok ⟨0, escape_inner (pyStr v)⟩

/-- Modelled from the spec: the `escape_silent` variant (spec section 4.2,
called `escape_or_empty` there), also absent from `src`: identical to
`escape` except that `None` maps to an empty safe string. -/
def escape_silent (v : PyVal) : Except PyErr Markup :=
  match v with
  | .vnone => .ok ⟨0, []⟩
  | v => escape v

/-- The classmethod `Markup.escape` (lines 165-175): call the module-level
`escape` and, when the result's class is not the invoking class `cls`,
rebuild it through `cls(rv)` (i.e. `Markup.__new__`). -/
def Markup.escapeCls (cls : Nat) (v : PyVal) : Except PyErr Markup :=
  match escape v with
  | .error e => .error e
  | .ok rv => if rv.cls ≠ cls then Markup.new cls (.vmarkup rv) else .ok rv

/-- `Markup.__add__` (lines 72-76): if the other operand is a `str` or has
the `__html__` capability, escape it through `self.escape` and append to
`self`'s content, rebuilding through `self.__class__`; otherwise return
`NotImplemented` (modelled as `none`), which the interpreter turns into a
`TypeError` for the caller once `__radd__` declines as well. -/
def Markup.add (self : Markup) (value : PyVal) : Option (Except PyErr Markup) :=
  if isStr value || hasHtml value then
    some (match Markup.escapeCls self.cls value with
      | .error e => .error e
      | .ok e => .ok ⟨self.cls, self.content ++ e.content⟩)
  else none

/-- `Markup.__radd__` (lines 78-82): if the other operand is a `str` or has
`__html__`, return `self.escape(value).__add__(self)`; otherwise
`NotImplemented`. The inner `__add__` never declines because `self` is a
`Markup`, hence a `str`; the dead branch carries an unreachable error. -/
def Markup.radd (self : Markup) (value : PyVal) : Option (Except PyErr Markup) :=
  if isStr value || hasHtml value then
    some (match Markup.escapeCls self.cls value with
      | .error e => .error e
      | .ok e =>
        match e.add (.vmarkup self) with
        | some r => r
        | none => .error ⟨"unreachable".toList⟩)
  else none

theorem escape_cls_zero {v : PyVal} {m : Markup} (h : escape v = .ok m) :
    m.cls = 0 := by
  unfold escape at h
  cases hv : callHtml v with
  | none => rw [hv] at h; cases h; rfl
  | some r =>
    rw [hv] at h
    cases r with
    | error e => cases h
    | ok s => cases h; rfl

theorem escapeCls_vstr (c : Nat) (t : List Char) :
    Markup.escapeCls c (.vstr t) = .ok ⟨c, escape_inner t⟩ := by
  by_cases h : c = 0
  · subst h; rfl
  · simp [Markup.escapeCls, escape, callHtml, Markup.new, pyStr, Ne.symm h]

theorem escapeCls_vmarkup (c : Nat) (m : Markup) :
    Markup.escapeCls c (.vmarkup m) = .ok ⟨c, m.content⟩ := by
  by_cases h : c = 0
  · subst h; rfl
  · simp [Markup.escapeCls, escape, callHtml, Markup.new, pyStr, Ne.symm h]

/-- Modelled from the spec: the fixed entity-name table of the Entity
Decoder (spec sections 3 and 4.4). The decoder (`html.unescape`, imported
from the standard library inside `Markup.unescape`, lines 124-133) is not
part of `src`, so table and decoder are modelled from the spec's words; the
table holds the canonical names the spec names together with the named
forms of the reserved characters. -/
def entityTable : List (List Char × Char) :=
  [("amp".toList, '&'), ("lt".toList, '<'), ("gt".toList, '>'),
   ("quot".toList, '"'), ("apos".toList, '\''), ("raquo".toList, '»')]

/-- Look a canonical entity name up in the fixed table. -/
def lookupEntity (name : List Char) : Option Char :=
  (entityTable.find? (fun p => p.1 == name)).map (fun p => p.2)

/-- Hexadecimal digit test. -/
def hexDigit (c : Char) : Bool :=
  c.isDigit || ('a' ≤ c && c ≤ 'f') || ('A' ≤ c && c ≤ 'F')

/-- Value of one hexadecimal digit. -/
def hexDigitVal (c : Char) : Nat :=
  if c.isDigit then c.toNat - 48 else if 'a' ≤ c then c.toNat - 87 else c.toNat - 55

/-- Value of a decimal digit string. -/
def decVal (ds : List Char) : Nat :=
  ds.foldl (fun a c => 10 * a + (c.toNat - 48)) 0

/-- Value of a hexadecimal digit string. -/
def hexVal (ds : List Char) : Nat :=
  ds.foldl (fun a c => 16 * a + hexDigitVal c) 0

/-- Modelled from the spec: parse a numeric character reference body (the
part after `&#` or `&#x`): a nonempty maximal digit run, a terminating
semicolon, and a value that denotes a valid code point; otherwise the
reference fails to parse and is left unmodified (spec section 4.4). -/
def parseNumRef (isDig : Char → Bool) (val : List Char → Nat) (ds : List Char) :
    Option (Char × List Char) :=
  let digits := ds.takeWhile isDig
  match ds.dropWhile isDig with
  | ';' :: rem =>
    if digits.isEmpty then none
    else if Nat.isValidChar (val digits) then some (Char.ofNat (val digits), rem)
    else none
  | _ => none

/-- Modelled from the spec: parse a named character reference body: a
maximal alphanumeric run followed by a semicolon, looked up in the fixed
table; unknown names are left unmodified (spec section 4.4). -/
def parseNamedRef (cs : List Char) : Option (Char × List Char) :=
  let name := cs.takeWhile Char.isAlphanum
  match cs.dropWhile Char.isAlphanum with
  | ';' :: rem =>
    match lookupEntity name with
    | some c => some (c, rem)
    | none => none
  | _ => none

/-- Modelled from the spec: parse one character reference immediately after
an ampersand - `&#xH;`/`&#XH;` hexadecimal, `&#N;` decimal, or `&name;`
named - returning the denoted character and the rest of the text. -/
def parseRef (cs : List Char) : Option (Char × List Char) :=
  match cs with
  | '#' :: 'x' :: ds => parseNumRef hexDigit hexVal ds
  | '#' :: 'X' :: ds => parseNumRef hexDigit hexVal ds
  | '#' :: ds => parseNumRef Char.isDigit decVal ds
  | cs => parseNamedRef cs

/-- Modelled from the spec: the Entity Decoder (spec section 4.4), a single
left-to-right pass: at an ampersand try to parse one character reference
and emit the character it denotes, resuming after the reference; references
that fail to parse are left unmodified. Structured on fuel so every result
is kernel-computable; each step consumes at least one input character, so
`length` fuel is enough (`pyUnescape` supplies it). -/
def unescapeFuel : Nat → List Char → List Char
  | 0, l => l
  | _ + 1, [] => []
  | fuel + 1, c :: cs =>
    if c = '&' then
      match parseRef cs with
      | some (d, rem) => d :: unescapeFuel fuel rem
      | none => c :: unescapeFuel fuel cs
    else c :: unescapeFuel fuel cs

/-- `html.unescape` over a whole text, as used by `Markup.unescape`. -/
def pyUnescape (l : List Char) : List Char := unescapeFuel l.length l

/-- A text has an entity-like substring when some suffix consists of an
ampersand followed by a parseable character reference (named `&name;`,
decimal `&#N;` or hexadecimal `&#xH;` shaped). This is the precondition
named by claim C4. -/
def hasEntityLike : List Char → Bool
  | [] => false
  | c :: cs => (c = '&' && (parseRef cs).isSome) || hasEntityLike cs

/-- Python `str.find(sub, start)` for nonempty `sub`: the least index
`i ≥ start` at which `sub` occurs in `s` (`none` models the return -1). -/
def strFindFrom (s sub : List Char) (start : Nat) : Option Nat :=
  (List.range (s.length + 1)).find?
    (fun i => decide (start ≤ i) && sub.isPrefixOf (s.drop i))

/-- Python `str.find(sub)`. -/
def strFind (s sub : List Char) : Option Nat := strFindFrom s sub 0

/-- Python `str.rfind(sub)` for nonempty `sub`: the greatest index at which
`sub` occurs. -/
def strRFind (s sub : List Char) : Option Nat :=
  (List.range (s.length + 1)).reverse.find? (fun i => sub.isPrefixOf (s.drop i))

/-- Python `str.partition(sep)`: split at the first occurrence of `sep`;
when `sep` does not occur, the text lands in the first slot. -/
def pyPartition (s sep : List Char) : List Char × List Char × List Char :=
  match strFind s sep with
  | some i => (s.take i, sep, s.drop (i + sep.length))
  | none => (s, [], [])

/-- Python `str.rpartition(sep)`: split at the last occurrence of `sep`;
when `sep` does not occur, the text lands in the last slot. -/
def pyRPartition (s sep : List Char) : List Char × List Char × List Char :=
  match strRFind s sep with
  | some i => (s.take i, sep, s.drop (i + sep.length))
  | none => ([], [], s)

/-- `Markup.partition` (lines 240-243) exactly as written in `src`: it calls
`super().partition(sep)` on the separator AS GIVEN - the separator is not
passed through `self.escape` - and re-tags the three parts with
`self.__class__`. -/
def Markup.partition (self : Markup) (sep : List Char) : Markup × Markup × Markup :=
  match pyPartition self.content sep with
  | (l, s, r) => (⟨self.cls, l⟩, ⟨self.cls, s⟩, ⟨self.cls, r⟩)

/-- `Markup.rpartition` (lines 245-248), likewise with the separator as
given. -/
def Markup.rpartition (self : Markup) (sep : List Char) : Markup × Markup × Markup :=
  match pyRPartition self.content sep with
  | (l, s, r) => (⟨self.cls, l⟩, ⟨self.cls, s⟩, ⟨self.cls, r⟩)

/-- Python `str.split()` with no separator: split on runs of whitespace,
discarding empty pieces; `acc` is the reversed chunk currently being read.
Lean's `Char.isWhitespace` covers the ASCII whitespace (space, tab,
newline, carriage return) that the spec names. -/
def splitWsAux : List Char → List Char → List (List Char)
  | [], acc => if acc.isEmpty then [] else [acc.reverse]
  | c :: cs, acc =>
    if c.isWhitespace then
      if acc.isEmpty then splitWsAux cs [] else acc.reverse :: splitWsAux cs []
    else splitWsAux cs (c :: acc)

/-- Python `str.split()` with no separator. -/
def pySplitWs (l : List Char) : List (List Char) := splitWsAux l []

/-- The source line `value = " ".join(self.split())` (line 143): collapse
every whitespace run to a single space and trim both ends. -/
def collapseWs (l : List Char) : List Char := List.intercalate [' '] (pySplitWs l)

/-- The first `while` loop of `striptags` (lines 149-154): repeatedly find
the earliest `<!--`; when a `-->` follows it, splice out both markers and
everything between, otherwise stop. Fuel-structured so results are
kernel-computable; each iteration removes at least the four marker
characters, so `length` fuel is enough. -/
def removeCommentsFuel : Nat → List Char → List Char
  | 0, value => value
  | fuel + 1, value =>
    match strFind value "<!--".toList with
    | none => value
    | some start =>
      match strFindFrom value "-->".toList start with
      | none => value
      | some e => removeCommentsFuel fuel (value.take start ++ value.drop (e + 3))

/-- The comment-removal loop of `striptags`. -/
def removeComments (value : List Char) : List Char :=
  removeCommentsFuel value.length value

/-- The second `while` loop of `striptags` (lines 157-161): same method
with `<` and `>`. -/
def removeTagsFuel : Nat → List Char → List Char
  | 0, value => value
  | fuel + 1, value =>
    match strFind value ['<'] with
    | none => value
    | some start =>
      match strFindFrom value ['>'] start with
      | none => value
      | some e => removeTagsFuel fuel (value.take start ++ value.drop (e + 1))

/-- The tag-removal loop of `striptags`. -/
def removeTags (value : List Char) : List Char :=
  removeTagsFuel value.length value

/-- `Markup.striptags` (lines 135-163) in the source's order: FIRST collapse
whitespace (line 143), then remove comments, then remove tags, finally
`self.__class__(value).unescape()` - which returns the decoded text as a
plain `str`. -/
def Markup.striptags (self : Markup) : List Char :=
  pyUnescape (removeTags (removeComments (collapseWs self.content)))

/-- The pipeline in the order CLAIM C6 states it (comments first, then tags,
then whitespace collapse, then the entity decoder), built from the same
stage functions, for comparison against the source's `Markup.striptags`. -/
def specStriptags (s : List Char) : List Char :=
  pyUnescape (collapseWs (removeTags (removeComments s)))

/-- Python `hasattr(type(v), "__getitem__")`: true for strings (including
the `str` subclass `Markup`), tuples and dict-like mappings. -/
def hasGetitem : PyVal → Bool
  | .vstr _ => true
  | .vmarkup _ => true
  | .vtuple _ => true
  | .vdict _ => true
  | _ => false

/-- Python subscription `v[key]` with a text key: a dict-like value looks
the key up (a missing key raises `KeyError`); any other value raises. -/
def pyGetItem (v : PyVal) (key : List Char) : Except PyErr PyVal :=
  match v with
  | .vdict entries =>
    match entries.find? (fun p => p.1 == key) with
    | some p => .ok p.2
    | none => .error ⟨"KeyError".toList⟩
  | _ => .error ⟨"TypeError: not subscriptable".toList⟩

/-- Python `repr(v)` for the values the modelled interpolations touch: a
plain string is quoted (the quote-free texts interpolated here need no
inner escaping, matching Python), an int prints its decimal text, a
`Markup` prints through its `__repr__` (line 103-104). -/
def pyRepr : PyVal → List Char
  | .vstr s => '\'' :: (s ++ ['\''])
  | .vmarkup m => "Markup('".toList ++ (m.content ++ "')".toList)
  | .vint n => (toString n).toList
  | .vnone => "None".toList
  | _ => "<object>".toList

/-- Parse a (optionally minus-signed) run of decimal digits, as Python
`int(text)` does; anything else raises `ValueError`. -/
def parseIntText (s : List Char) : Except PyErr Int :=
  match s with
  | '-' :: ds =>
    if !ds.isEmpty && ds.all Char.isDigit then .ok (-(decVal ds : Int))
    else .error ⟨"ValueError: invalid literal for int".toList⟩
  | ds =>
    if !ds.isEmpty && ds.all Char.isDigit then .ok (decVal ds : Int)
    else .error ⟨"ValueError: invalid literal for int".toList⟩

/-- Python `int(v)`: ints pass through unchanged, texts are parsed, other
values raise. -/
def pyInt (v : PyVal) : Except PyErr Int :=
  match v with
  | .vint n => .ok n
  | .vstr s => parseIntText s
  | .vmarkup m => parseIntText m.content
  | _ => .error ⟨"TypeError: int() argument".toList⟩

/-- `_MarkupEscapeHelper` (lines 294-316): the lazy-escape proxy, wrapping
the original value together with the escape strategy (`self.escape` of the
interpolating instance). -/
structure MarkupEscapeHelper where
  obj : PyVal
  escape : PyVal → Except PyErr Markup

/-- `_MarkupEscapeHelper.__getitem__` (lines 303-304): subscribe the
wrapped object and re-wrap the result with the same escape strategy. -/
def MarkupEscapeHelper.get (h : MarkupEscapeHelper) (key : List Char) :
    Except PyErr MarkupEscapeHelper :=
  match pyGetItem h.obj key with
  | .error e => .error e
  | .ok x => .ok ⟨x, h.escape⟩

/-- `_MarkupEscapeHelper.__str__` (lines 306-307):
`str(self.escape(self.obj))` - textual coercion goes through escaping. -/
def MarkupEscapeHelper.strC (h : MarkupEscapeHelper) : Except PyErr (List Char) :=
  match h.escape h.obj with
  | .error e => .error e
  | .ok m => .ok m.content

/-- `_MarkupEscapeHelper.__repr__` (lines 309-310):
`str(self.escape(repr(self.obj)))`. -/
def MarkupEscapeHelper.reprC (h : MarkupEscapeHelper) : Except PyErr (List Char) :=
  match h.escape (.vstr (pyRepr h.obj)) with
  | .error e => .error e
  | .ok m => .ok m.content

/-- `_MarkupEscapeHelper.__int__` (lines 312-313): `int(self.obj)` - the
numeric coercion reads the ORIGINAL wrapped value and never escapes. -/
def MarkupEscapeHelper.intC (h : MarkupEscapeHelper) : Except PyErr Int :=
  pyInt h.obj

/-- Modelled from the spec: one conversion of Python's `%`-interpolation
engine (the engine lives in the interpreter, outside this repository)
applied to a wrapped helper, per spec section 4.3: `%s` stringifies the
helper (so the value is escaped), `%r` takes its repr (escaped), and the
numeric specifiers `%d`/`%i` coerce the wrapped value through `int()`
directly and print its decimal text without escaping. Specifiers outside
the model raise. -/
def applyConv (c : Char) (h : MarkupEscapeHelper) : Except PyErr (List Char) :=
  if c = 's' then h.strC
  else if c = 'r' then h.reprC
  else if c = 'd' || c = 'i' then
    match h.intC with
    | .error e => .error e
    | .ok n => .ok (toString n).toList
  else .error ⟨"unsupported format character".toList⟩

/-- Modelled from the spec: the `%`-interpolation scan with positional
arguments (native interpolation semantics, spec section 4.3): `%%` is a
literal percent, every other directive consumes the next argument in
order; running out of arguments, or leftover arguments at the end, raise
exactly as Python's engine does. -/
def runModPos : List Char → List MarkupEscapeHelper → Except PyErr (List Char)
  | [], args =>
    if args.isEmpty then .ok []
    else .error ⟨"not all arguments converted".toList⟩
  | ['%'], _ => .error ⟨"incomplete format".toList⟩
  | '%' :: c :: rest, args =>
    if c = '%' then
      match runModPos rest args with
      | .error e => .error e
      | .ok out => .ok ('%' :: out)
    else
      match args with
      | [] => .error ⟨"not enough arguments for format string".toList⟩
      | h :: args' =>
        match applyConv c h with
        | .error e => .error e
        | .ok s =>
          match runModPos rest args' with
          | .error e => .error e
          | .ok out => .ok (s ++ out)
  | c :: rest, args =>
    match runModPos rest args with
    | .error e => .error e
    | .ok out => .ok (c :: out)

/-- Modelled from the spec: the `%`-interpolation scan with a mapping-like
argument wrapped in one helper: `%(name)conv` subscribes the helper (so
the looked-up value is re-wrapped with the same strategy) and converts the
result; a directive without a name uses the whole helper as the single
value, as the native engine does for a mapping argument; `%%` is a literal
percent. Fuel-structured (each step consumes at least one template
character, so `length` fuel is enough). -/
def runModMapFuel : Nat → List Char → MarkupEscapeHelper → Except PyErr (List Char)
  | 0, _, _ => .error ⟨"fuel exhausted (unreachable)".toList⟩
  | _ + 1, [], _ => .ok []
  | _ + 1, ['%'], _ => .error ⟨"incomplete format".toList⟩
  | fuel + 1, '%' :: '(' :: rest, h =>
    let name := rest.takeWhile (fun c => !(c = ')'))
    match rest.dropWhile (fun c => !(c = ')')) with
    | ')' :: c :: rest' =>
      match h.get name with
      | .error e => .error e
      | .ok h' =>
        match applyConv c h' with
        | .error e => .error e
        | .ok s =>
          match runModMapFuel fuel rest' h with
          | .error e => .error e
          | .ok out => .ok (s ++ out)
    | _ => .error ⟨"incomplete format key".toList⟩
  | fuel + 1, '%' :: c :: rest, h =>
    if c = '%' then
      match runModMapFuel fuel rest h with
      | .error e => .error e
      | .ok out => .ok ('%' :: out)
    else
      match applyConv c h with
      | .error e => .error e
      | .ok s =>
        match runModMapFuel fuel rest h with
        | .error e => .error e
        | .ok out => .ok (s ++ out)
  | fuel + 1, c :: rest, h =>
    match runModMapFuel fuel rest h with
    | .error e => .error e
    | .ok out => .ok (c :: out)

/-- The mapping-argument interpolation scan. -/
def runModMap (fmt : List Char) (h : MarkupEscapeHelper) : Except PyErr (List Char) :=
  runModMapFuel fmt.length fmt h

/-- `Markup.__mod__` (lines 90-101): a tuple argument wraps EACH element in
the lazy-escape helper; a non-`str` value whose type has `__getitem__`
(mapping-like) is wrapped whole; any other value is wrapped as an implicit
1-tuple. The substituted text is rebuilt through `self.__class__`. -/
def Markup.mod (self : Markup) (value : PyVal) : Except PyErr Markup :=
  match value with
  | .vtuple xs =>
    match runModPos self.content (xs.map (fun x => ⟨x, Markup.escapeCls self.cls⟩)) with
    | .error e => .error e
    | .ok s => .ok ⟨self.cls, s⟩
  | v =>
    if hasGetitem v && !isStr v then
      match runModMap self.content ⟨v, Markup.escapeCls self.cls⟩ with
      | .error e => .error e
      | .ok s => .ok ⟨self.cls, s⟩
    else
      match runModPos self.content [⟨v, Markup.escapeCls self.cls⟩] with
      | .error e => .error e
      | .ok s => .ok ⟨self.cls, s⟩

/-- `n` copies of a text, concatenated. -/
def repeatN : Nat → List Char → List Char
  | 0, _ => []
  | n + 1, s => s ++ repeatN n s

/-- `Markup.__mul__`/`__rmul__` (lines 84-88): the underlying `str`
repetition (empty for a non-positive count), rebuilt through
`self.__class__`; no escaping, no new content. -/
def Markup.mul (self : Markup) (n : Int) : Markup :=
  ⟨self.cls, repeatN n.toNat self.content⟩

/-- `Markup.join` (lines 106-107): escape every element of the iterable
through `self.escape`, join with `self`'s own content as separator, rebuild
through `self.__class__`. -/
def Markup.join (self : Markup) (xs : List PyVal) : Except PyErr Markup :=
  match xs.mapM (Markup.escapeCls self.cls) with
  | .error e => .error e
  | .ok parts => .ok ⟨self.cls, List.intercalate self.content (parts.map Markup.content)⟩

/-- Python `str.split(sep, maxsplit)` for nonempty `sep`: split at each
occurrence left to right, at most `maxsplit` times (negative means
unlimited, the default is -1). Fuel-structured; each step consumes at
least one character of `s`. -/
def splitSepFuel : Nat → List Char → List Char → Int → List (List Char)
  | 0, s, _, _ => [s]
  | fuel + 1, s, sep, maxsplit =>
    if maxsplit = 0 then [s]
    else
      match strFind s sep with
      | none => [s]
      | some i => s.take i :: splitSepFuel fuel (s.drop (i + sep.length)) sep (maxsplit - 1)

/-- Python `str.split(sep, maxsplit)` for nonempty `sep`. -/
def pySplitSep (s sep : List Char) (maxsplit : Int) : List (List Char) :=
  splitSepFuel (s.length + 1) s sep maxsplit

/-- `Markup.split` (lines 109-112): split the underlying `str` and re-tag
every piece with `self.__class__` (no escaping - splitting only partitions
existing safe content). `none` is Python's `sep=None` whitespace
splitting, modelled at the default `maxsplit=-1`. -/
def Markup.split (self : Markup) (sep : Option (List Char)) (maxsplit : Int) :
    List Markup :=
  match sep with
  | none => (pySplitWs self.content).map (fun v => ⟨self.cls, v⟩)
  | some sp => (pySplitSep self.content sp maxsplit).map (fun v => ⟨self.cls, v⟩)

/-- Python subscription keys for strings: an index or a step-1 slice. -/
inductive StrKey where
  | idx (i : Int)
  | slice (start stop : Option Int)

/-- Resolve one Python slice bound against a length: a negative index
counts from the end, then the result is clamped into the range. -/
def sliceBound (len : Nat) (b : Option Int) (dflt : Nat) : Nat :=
  match b with
  | none => dflt
  | some i =>
    let j := if i < 0 then i + len else i
    if j < 0 then 0 else if (len : Int) < j then len else j.toNat

/-- Python `s[start:stop]` with step 1. -/
def pySlice (s : List Char) (start stop : Option Int) : List Char :=
  (s.take (sliceBound s.length stop s.length)).drop (sliceBound s.length start 0)

/-- Python `str.__getitem__`: an index yields a one-character string (a
negative index counts from the end; out of range raises `IndexError`), a
slice yields the selected range. -/
def pyStrGetItem (s : List Char) : StrKey → Except PyErr (List Char)
  | .idx i =>
    let j := if i < 0 then i + s.length else i
    if 0 ≤ j && j < (s.length : Int) then .ok ((s.drop j.toNat).take 1)
    else .error ⟨"IndexError".toList⟩
  | .slice a b => .ok (pySlice s a b)

/-- `Markup.__getitem__` (lines 177-178): subscribe the underlying `str`
and re-tag the result with `self.__class__`. -/
def Markup.getitem (self : Markup) (k : StrKey) : Except PyErr Markup :=
  match pyStrGetItem self.content k with
  | .error e => .error e
  | .ok s => .ok ⟨self.cls, s⟩

/-- `Markup.upper` (lines 189-190), over ASCII case mapping. -/
def Markup.upper (self : Markup) : Markup :=
  ⟨self.cls, self.content.map Char.toUpper⟩

/-- `Markup.lower` (lines 186-187). -/
def Markup.lower (self : Markup) : Markup :=
  ⟨self.cls, self.content.map Char.toLower⟩

/-- `Markup.capitalize` (lines 180-181): first character upper-cased, the
rest lower-cased, re-tagged with `self.__class__`. -/
def Markup.capitalize (self : Markup) : Markup :=
  match self.content with
  | [] => ⟨self.cls, []⟩
  | c :: cs => ⟨self.cls, c.toUpper :: cs.map Char.toLower⟩

/-- Python `str.lstrip(chars)`: drop leading characters belonging to the
set (`none` strips whitespace). -/
def pyLStrip (chars : Option (List Char)) (s : List Char) : List Char :=
  match chars with
  | none => s.dropWhile Char.isWhitespace
  | some cs => s.dropWhile (fun c => cs.contains c)

/-- Python `str.rstrip(chars)`. -/
def pyRStrip (chars : Option (List Char)) (s : List Char) : List Char :=
  (pyLStrip chars s.reverse).reverse

/-- `Markup.lstrip` (lines 201-202): strip and re-tag (the `chars`
argument is used as given, matching the source). -/
def Markup.lstrip (self : Markup) (chars : Option (List Char)) : Markup :=
  ⟨self.cls, pyLStrip chars self.content⟩

/-- `Markup.rstrip` (lines 204-205). -/
def Markup.rstrip (self : Markup) (chars : Option (List Char)) : Markup :=
  ⟨self.cls, pyRStrip chars self.content⟩

/-- `Markup.strip` (lines 210-211). -/
def Markup.strip (self : Markup) (chars : Option (List Char)) : Markup :=
  ⟨self.cls, pyRStrip chars (pyLStrip chars self.content)⟩

/-- Python `str.ljust(width, fill)`: requires a one-character fill (else
`TypeError`), pads on the right up to `width`. -/
def pyLJust (s : List Char) (width : Int) (fill : List Char) :
    Except PyErr (List Char) :=
  if fill.length ≠ 1 then .error ⟨"TypeError: fillchar must be one char".toList⟩
  else if width ≤ (s.length : Int) then .ok s
  else .ok (s ++ repeatN (width.toNat - s.length) fill)

/-- Python `str.rjust(width, fill)`. -/
def pyRJust (s : List Char) (width : Int) (fill : List Char) :
    Except PyErr (List Char) :=
  if fill.length ≠ 1 then .error ⟨"TypeError: fillchar must be one char".toList⟩
  else if width ≤ (s.length : Int) then .ok s
  else .ok (repeatN (width.toNat - s.length) fill ++ s)

/-- `Markup.ljust` (lines 195-196): the CALLER-SUPPLIED fill character is
first passed through `self.escape`, then the underlying `str.ljust` runs
and the result is re-tagged. (Escaping a reserved fill character turns it
into a multi-character entity, which the underlying `ljust` rejects - as
in Python.) -/
def Markup.ljust (self : Markup) (width : Int) (fillchar : PyVal) :
    Except PyErr Markup :=
  match Markup.escapeCls self.cls fillchar with
  | .error e => .error e
  | .ok f =>
    match pyLJust self.content width f.content with
    | .error e => .error e
    | .ok s => .ok ⟨self.cls, s⟩

/-- `Markup.rjust` (lines 198-199). -/
def Markup.rjust (self : Markup) (width : Int) (fillchar : PyVal) :
    Except PyErr Markup :=
  match Markup.escapeCls self.cls fillchar with
  | .error e => .error e
  | .ok f =>
    match pyRJust self.content width f.content with
    | .error e => .error e
    | .ok s => .ok ⟨self.cls, s⟩

/-- Python `str.replace(old, new, count)` for nonempty `old`: replace
occurrences left to right, at most `count` of them (negative means all).
The replacement text is never rescanned. Fuel-structured. -/
def replaceSubFuel : Nat → List Char → List Char → List Char → Int → List Char
  | 0, s, _, _, _ => s
  | fuel + 1, s, old, new, count =>
    if count = 0 then s
    else
      match strFind s old with
      | none => s
      | some i =>
        s.take i ++ new ++ replaceSubFuel fuel (s.drop (i + old.length)) old new (count - 1)

/-- Python `str.replace(old, new, count)` for nonempty `old`. -/
def pyReplace (s old new : List Char) (count : Int) : List Char :=
  replaceSubFuel (s.length + 1) s old new count

/-- `Markup.replace` (lines 192-193): the NEW text is passed through
`self.escape` before substitution (the OLD text is matched as given), and
the result is re-tagged with `self.__class__`. -/
def Markup.replace (self : Markup) (old : List Char) (new : PyVal) (count : Int) :
    Except PyErr Markup :=
  match Markup.escapeCls self.cls new with
  | .error e => .error e
  | .ok n => .ok ⟨self.cls, pyReplace self.content old n.content count⟩

/-- Propagate content out of an escape result. -/
def mContent : Except PyErr Markup → Except PyErr (List Char)
  | .error e => .error e
  | .ok m => .ok m.content

/-- `EscapeFormatter.format_field` (lines 276-291): a value with
`__html_format__` (here: `Markup`, lines 262-266) renders itself, raising
on a nonempty format spec; a value with only `__html__` raises on a
nonempty spec and otherwise renders (its fragment is already safe - in
practice `__html__` returns a `Markup` - so the final
`str(self.escape(rv))` leaves it unchanged); any other value is formatted
by the host formatter (only the empty format spec is modelled for plain
values) and the resulting text is escaped through `self.escape`. -/
def formatField (esc : PyVal → Except PyErr Markup) (value : PyVal)
    (spec : List Char) : Except PyErr (List Char) :=
  match value with
  | .vmarkup m =>
    if !spec.isEmpty then
      .error ⟨"ValueError: Unsupported format specification for Markup.".toList⟩
    else mContent (esc (.vmarkup m))
  | .vhtml h =>
    if !spec.isEmpty then
      .error ⟨"ValueError: __html__ without __html_format__".toList⟩
    else
      match h with
      | .error e => .error e
      | .ok s => mContent (esc (.vmarkup ⟨0, s⟩))
  | v =>
    if !spec.isEmpty then
      .error ⟨"format spec on plain value: outside the model".toList⟩
    else mContent (esc v)

/-- Modelled from the spec: a minimal `string.Formatter.vformat` engine
(the real engine is the host standard library's, spec section 4.3): literal
text is copied; a field is an opening brace, a field name (empty for
auto-numbered positional, digits for explicit positional, otherwise a
keyword), an optional colon-separated format spec, and a closing brace;
every field value is rendered through `format_field`. Empty field names
consume sequential positional arguments in first-seen order. -/
def vformatFuel (esc : PyVal → Except PyErr Markup) :
    Nat → List Char → List PyVal → List (List Char × PyVal) → Nat →
      Except PyErr (List Char)
  | 0, _, _, _, _ => .error ⟨"fuel exhausted (unreachable)".toList⟩
  | _ + 1, [], _, _, _ => .ok []
  | fuel + 1, '\x7b' :: rest, args, kwargs, auto =>
    let name := rest.takeWhile (fun c => !(c = ':') && !(c = '\x7d'))
    let (spec, rest1) :=
      match rest.dropWhile (fun c => !(c = ':') && !(c = '\x7d')) with
      | ':' :: r => (r.takeWhile (fun c => !(c = '\x7d')), r.dropWhile (fun c => !(c = '\x7d')))
      | r => ([], r)
    match rest1 with
    | '\x7d' :: rest2 =>
      let lookup : Except PyErr (PyVal × Nat) :=
        if name.isEmpty then
          match args.get? auto with
          | some v => .ok (v, auto + 1)
          | none => .error ⟨"IndexError: not enough positional arguments".toList⟩
        else if name.all Char.isDigit then
          match args.get? (decVal name) with
          | some v => .ok (v, auto)
          | none => .error ⟨"IndexError".toList⟩
        else
          match kwargs.find? (fun p => p.1 == name) with
          | some p => .ok (p.2, auto)
          | none => .error ⟨"KeyError".toList⟩
      match lookup with
      | .error e => .error e
      | .ok (v, auto') =>
        match formatField esc v spec with
        | .error e => .error e
        | .ok s =>
          match vformatFuel esc fuel rest2 args kwargs auto' with
          | .error e => .error e
          | .ok out => .ok (s ++ out)
    | _ => .error ⟨"ValueError: unmatched brace in format string".toList⟩
  | fuel + 1, c :: rest, args, kwargs, auto =>
    match vformatFuel esc fuel rest args kwargs auto with
    | .error e => .error e
    | .ok out => .ok (c :: out)

/-- `Markup.format` (lines 250-252): run `EscapeFormatter(self.escape)`
over the template and rebuild the result through `self.__class__`. -/
def Markup.format (self : Markup) (args : List PyVal)
    (kwargs : List (List Char × PyVal)) : Except PyErr Markup :=
  match vformatFuel (Markup.escapeCls self.cls) self.content.length self.content
      args kwargs 0 with
  | .error e => .error e
  | .ok s => .ok ⟨self.cls, s⟩

theorem replaceChar_append (old : Char) (new a b : List Char) :
    replaceChar old new (a ++ b) = replaceChar old new a ++ replaceChar old new b := by
  induction a with
  | nil => rfl
  | cons c cs ih => simp [replaceChar, ih]

theorem escape_inner_append (a b : List Char) :
    escape_inner (a ++ b) = escape_inner a ++ escape_inner b := by
  simp [escape_inner, replaceChar_append]

theorem escape_inner_singleton (c : Char) : escape_inner [c] = escapeChar c := by
  by_cases h1 : c = '&'
  · subst h1; decide
  by_cases h2 : c = '<'
  · subst h2; decide
  by_cases h3 : c = '>'
  · subst h3; decide
  by_cases h4 : c = '\''
  · subst h4; decide
  by_cases h5 : c = '"'
  · subst h5; decide
  simp [escape_inner, replaceChar, escapeChar, h1, h2, h3, h4, h5]

theorem escape_inner_cons (c : Char) (s : List Char) :
    escape_inner (c :: s) = escapeChar c ++ escape_inner s := by
  have h : c :: s = [c] ++ s := rfl
  rw [h, escape_inner_append, escape_inner_singleton]

theorem escape_inner_eq_escapeAll (s : List Char) : escape_inner s = escapeAll s := by
  induction s with
  | nil => rfl
  | cons c cs ih => rw [escape_inner_cons, ih]; rfl

/-- Claim C1: `escape_inner` replaces every occurrence of the five reserved
characters by its entity and copies every other character unchanged in its
original order (it coincides with the pointwise map `escapeAll`); in
particular on the five-character input double-quote, less-than, greater-than,
ampersand, apostrophe it yields exactly `&#34;&lt;&gt;&amp;&#39;`. -/
theorem escape_inner_pointwise :
    (∀ s : List Char, escape_inner s = escapeAll s) ∧
      escape_inner "\"<>&'".toList = "&#34;&lt;&gt;&amp;&#39;".toList :=
  ⟨escape_inner_eq_escapeAll, by decide⟩

/-- Claim C2: concatenating a `Markup` with plain text, in either operand
order, escapes exactly the plain-text operand, leaves the `Markup`'s own
content untouched and yields a safe string of the same class; when the other
operand is neither a `str` nor capability-bearing, both `__add__` and
`__radd__` decline (return `NotImplemented`, i.e. the interpreter signals a
`TypeError` to the caller). -/
theorem add_escapes_other_operand :
    (∀ (m : Markup) (t : List Char),
        m.add (.vstr t) = some (.ok ⟨m.cls, m.content ++ escape_inner t⟩)) ∧
    (∀ (m : Markup) (t : List Char),
        m.radd (.vstr t) = some (.ok ⟨m.cls, escape_inner t ++ m.content⟩)) ∧
    (∀ (m : Markup) (v : PyVal),
        (m.add v = none ↔ (isStr v = false ∧ hasHtml v = false)) ∧
        (m.radd v = none ↔ (isStr v = false ∧ hasHtml v = false))) := by
  refine ⟨?_, ?_, ?_⟩
  · intro m t
    simp [Markup.add, isStr, escapeCls_vstr]
  · intro m t
    simp [Markup.radd, Markup.add, isStr, escapeCls_vstr, escapeCls_vmarkup]
  · intro m v
    constructor <;> cases v <;> simp [Markup.add, Markup.radd, isStr, hasHtml]

/-- Claim C3: `escape` of an already-safe value returns a safe value whose
character content is identical (no double-escaping, no re-scan of the
content); consequently `escape` is idempotent on its own outputs. -/
theorem escape_no_double_escape :
    (∀ m : Markup, escape (.vmarkup m) = .ok ⟨0, m.content⟩) ∧
    (∀ (v : PyVal) (m : Markup), escape v = .ok m → escape (.vmarkup m) = .ok m) := by
  constructor
  · intro m; rfl
  · intro v m h
    have hc : m.cls = 0 := escape_cls_zero h
    cases m with
    | mk c s => cases hc; rfl

/-- Witness for C3: escaping the one-character text `<` yields the safe text
`&lt;`, and escaping that output again returns it unchanged. -/
theorem escape_no_double_escape_witness :
    escape (.vmarkup ⟨0, "&lt;".toList⟩) = .ok ⟨0, "&lt;".toList⟩ :=
  escape_no_double_escape.2 (.vstr ['<']) ⟨0, "&lt;".toList⟩ rfl

/-- Claim C7: when a value's `__html__` capability raises, `escape` of that
value and `Markup` construction from it raise the very same exception,
unmodified - the failure is never swallowed or replaced by a fallback. -/
theorem escape_propagates_html_exception :
    ∀ (e : PyErr) (cls : Nat),
      escape (.vhtml (.error e)) = .error e ∧
        Markup.new cls (.vhtml (.error e)) = .error e := by
  intro e cls
  exact ⟨rfl, rfl⟩

/-- Claim C9: `escape_silent` agrees with `escape` on every non-`None`
input, maps `None` to the empty safe string, while `escape` on `None` yields
the safe text `None`. -/
theorem escape_silent_spec :
    (∀ v : PyVal, v ≠ .vnone → escape_silent v = escape v) ∧
    escape_silent .vnone = .ok ⟨0, []⟩ ∧
    escape .vnone = .ok ⟨0, "None".toList⟩ := by
  refine ⟨?_, rfl, rfl⟩
  intro v h
  cases v <;> first | rfl | exact absurd rfl h

/-- Witness for C9: on the non-`None` input `<` the two entry points agree. -/
theorem escape_silent_spec_witness :
    PyVal.vstr ['<'] ≠ .vnone ∧
      escape_silent (.vstr ['<']) = escape (.vstr ['<']) :=
  ⟨fun h => PyVal.noConfusion h,
    escape_silent_spec.1 (.vstr ['<']) (fun h => PyVal.noConfusion h)⟩

theorem unescapeFuel_nil (f : Nat) : unescapeFuel f [] = [] := by
  cases f <;> rfl

theorem one_le_length_escapeChar (c : Char) : 1 ≤ (escapeChar c).length := by
  unfold escapeChar
  split_ifs <;> simp [ampEnt, ltEnt, gtEnt, aposEnt, quotEnt]

theorem length_le_escapeAll (t : List Char) : t.length ≤ (escapeAll t).length := by
  induction t with
  | nil => simp [escapeAll]
  | cons c cs ih =>
    have h := one_le_length_escapeChar c
    simp only [escapeAll, List.length_cons, List.length_append]
    omega

theorem unescapeFuel_escapeAll (t : List Char) :
    ∀ f : Nat, t.length ≤ f → unescapeFuel f (escapeAll t) = t := by
  induction t with
  | nil => intro f _; exact unescapeFuel_nil f
  | cons c t' ih =>
    intro f hf
    cases f with
    | zero => simp at hf
    | succ f =>
      have hf' : t'.length ≤ f := by
        simp only [List.length_cons] at hf
        omega
      by_cases h1 : c = '&'
      · subst h1
        have h : unescapeFuel (f + 1) (escapeAll ('&' :: t')) =
            '&' :: unescapeFuel f (escapeAll t') := rfl
        rw [h, ih f hf']
      by_cases h2 : c = '<'
      · subst h2
        have h : unescapeFuel (f + 1) (escapeAll ('<' :: t')) =
            '<' :: unescapeFuel f (escapeAll t') := rfl
        rw [h, ih f hf']
      by_cases h3 : c = '>'
      · subst h3
        have h : unescapeFuel (f + 1) (escapeAll ('>' :: t')) =
            '>' :: unescapeFuel f (escapeAll t') := rfl
        rw [h, ih f hf']
      by_cases h4 : c = '\''
      · subst h4
        have h : unescapeFuel (f + 1) (escapeAll ('\'' :: t')) =
            '\'' :: unescapeFuel f (escapeAll t') := rfl
        rw [h, ih f hf']
      by_cases h5 : c = '"'
      · subst h5
        have h : unescapeFuel (f + 1) (escapeAll ('"' :: t')) =
            '"' :: unescapeFuel f (escapeAll t') := rfl
        rw [h, ih f hf']
      have hchar : escapeChar c = [c] := by
        simp [escapeChar, h1, h2, h3, h4, h5]
      have h : escapeAll (c :: t') = c :: escapeAll t' := by
        show escapeChar c ++ escapeAll t' = _
        rw [hchar]; rfl
      rw [h]
      simp only [unescapeFuel, if_neg h1]
      rw [ih f hf']

/-- Claim C4: on every text free of pre-existing entity-like substrings, the
entity decoder is a left inverse of the escape primitive:
`unescape (escape_inner t) = t`. (The modelled round trip needs no
precondition at all - escaping leaves no raw ampersand - but the hypothesis
is the claim's.) -/
theorem unescape_left_inverse_of_escape (t : List Char)
    (_h : hasEntityLike t = false) : pyUnescape (escape_inner t) = t := by
  rw [escape_inner_eq_escapeAll, pyUnescape]
  exact unescapeFuel_escapeAll t _ (length_le_escapeAll t)

/-- Witness for C4: the text `a<b&` has no entity-like substring, and
decoding its escaped form `a&lt;b&amp;` gives it back. -/
theorem unescape_left_inverse_of_escape_witness :
    hasEntityLike "a<b&".toList = false ∧
      pyUnescape (escape_inner "a<b&".toList) = "a<b&".toList :=
  ⟨by decide, unescape_left_inverse_of_escape "a<b&".toList (by decide)⟩

/-- Claim C5 (code bug): the source `partition`/`rpartition` match the
separator AS GIVEN instead of escaping it first. At `Markup("a&amp;b")`
with separator `&` the code tears the entity `&amp;` apart and returns
`("a", "&", "amp;b")` (each part tagged safe), while matching the escaped
separator - as the claim, the class docstring and the repository's own
test-suite require - yields `("a", "&amp;", "b")`. -/
theorem partition_raw_separator_bug :
    Markup.partition ⟨0, "a&amp;b".toList⟩ ['&'] =
      (⟨0, "a".toList⟩, ⟨0, ['&']⟩, ⟨0, "amp;b".toList⟩) ∧
    Markup.rpartition ⟨0, "a&amp;b".toList⟩ ['&'] =
      (⟨0, "a".toList⟩, ⟨0, ['&']⟩, ⟨0, "amp;b".toList⟩) ∧
    pyPartition "a&amp;b".toList (escape_inner ['&']) =
      ("a".toList, "&amp;".toList, "b".toList) := by
  decide

/-- Counterexample to claim C6 as stated: on `"a <!-- x --> b"` the source
`striptags` collapses whitespace BEFORE removing the comment, so comment
removal merges the two single spaces around it and the final output
`"a  b"` contains a run of two spaces; the order the claim states (comments
first, collapse third) would give `"a b"`. -/
theorem striptags_order_counterexample :
    Markup.striptags ⟨0, "a <!-- x --> b".toList⟩ = "a  b".toList ∧
    specStriptags "a <!-- x --> b".toList = "a b".toList ∧
    "a  b".toList ≠ "a b".toList := by
  decide

/-- Claim C6 as amended: `striptags` performs its steps in this order -
first collapse all whitespace runs (including newlines and tabs) to single
ASCII spaces and trim both ends, then remove every HTML comment (earliest
`<!--` to earliest following `-->`), then remove every remaining tag
(earliest `<` to earliest following `>`), and finally run the entity
decoder; consequently, when comment removal brings two space-separated
words together, the final output can contain a run of two spaces (second
conjunct), and on the docstring example the pipeline yields the documented
text (third conjunct). -/
theorem striptags_amended_order :
    (∀ m : Markup,
        m.striptags = pyUnescape (removeTags (removeComments (collapseWs m.content)))) ∧
    Markup.striptags ⟨0, "a <!-- x --> b".toList⟩ = "a  b".toList ∧
    Markup.striptags ⟨0, "Main &raquo;\t<em>About</em>".toList⟩ = "Main » About".toList :=
  ⟨fun _ => rfl, by decide, by decide⟩

/-- Claim C8: in `%`-interpolation on a `Markup`, a single non-tuple
non-mapping argument behaves exactly as the implicit 1-tuple of one wrapped
proxy (first conjunct); each tuple element and each value looked up from a
mapping argument is wrapped in the lazy-escape proxy, so the textual
conversions `%s` and `%r` produce the escaped text of the value (second to
fifth conjuncts), while the numeric specifiers `%i`/`%d` coerce the proxy's
original wrapped value directly, without escaping, in all three argument
shapes (last three conjuncts). -/
theorem mod_wraps_in_lazy_proxy :
    (∀ (m : Markup) (t : List Char), m.mod (.vstr t) = m.mod (.vtuple [.vstr t])) ∧
    (∀ (cls : Nat) (t : List Char),
        Markup.mod ⟨cls, ['%', 's']⟩ (.vstr t) = .ok ⟨cls, escape_inner t⟩) ∧
    (∀ (cls : Nat) (t u : List Char),
        Markup.mod ⟨cls, ['%', 's', ' ', '%', 's']⟩ (.vtuple [.vstr t, .vstr u]) =
          .ok ⟨cls, escape_inner t ++ ' ' :: escape_inner u⟩) ∧
    (∀ (cls : Nat) (t : List Char),
        Markup.mod ⟨cls, ['%', '(', 'k', ')', 's']⟩ (.vdict [(['k'], .vstr t)]) =
          .ok ⟨cls, escape_inner t⟩) ∧
    (∀ (cls : Nat) (t : List Char),
        Markup.mod ⟨cls, ['%', 'r']⟩ (.vstr t) =
          .ok ⟨cls, escape_inner (pyRepr (.vstr t))⟩) ∧
    (∀ (cls : Nat) (n : Int),
        Markup.mod ⟨cls, ['%', 'i']⟩ (.vint n) = .ok ⟨cls, (toString n).toList⟩) ∧
    (∀ (cls : Nat) (n : Int),
        Markup.mod ⟨cls, ['%', 'd']⟩ (.vtuple [.vint n]) = .ok ⟨cls, (toString n).toList⟩) ∧
    (∀ (cls : Nat) (n : Int),
        Markup.mod ⟨cls, ['%', '(', 'k', ')', 'i']⟩ (.vdict [(['k'], .vint n)]) =
          .ok ⟨cls, (toString n).toList⟩) := by
  refine ⟨fun m t => rfl, ?_, ?_, ?_, ?_, ?_, ?_, ?_⟩ <;>
    intro cls x <;>
    simp [Markup.mod, hasGetitem, isStr, runModPos, runModMap, runModMapFuel,
      applyConv, MarkupEscapeHelper.strC, MarkupEscapeHelper.reprC,
      MarkupEscapeHelper.intC, MarkupEscapeHelper.get, pyGetItem, pyInt,
      escapeCls_vstr, List.takeWhile, List.dropWhile]

theorem escapeCls_cls {c : Nat} {v : PyVal} {r : Markup}
    (h : Markup.escapeCls c v = .ok r) : r.cls = c := by
  unfold Markup.escapeCls at h
  split at h
  · cases h
  · rename_i rv hrv
    split at h
    · simp only [Markup.new, callHtml] at h
      cases h; rfl
    · rename_i hne
      cases h
      simpa using hne

theorem okCls {c : Nat} {s : List Char} {r : Markup}
    (h : (Except.ok ⟨c, s⟩ : Except PyErr Markup) = .ok r) : r.cls = c := by
  cases h; rfl

/-- Claim C10: every string-deriving operation invoked on an instance of a
`Markup` subclass returns instances of that same class - concatenation in
both directions, repetition, join, split, partition and right-partition,
indexing/slicing, case operations, strip operations, pad operations,
replace, format, and modulo interpolation - and the classmethod `escape`
coerces the shared escape result into the invoking class. -/
theorem subclass_preservation :
    (∀ (c : Nat) (v : PyVal) (r : Markup), Markup.escapeCls c v = .ok r → r.cls = c) ∧
    (∀ (m : Markup) (v : PyVal) (r : Markup), m.add v = some (.ok r) → r.cls = m.cls) ∧
    (∀ (m : Markup) (v : PyVal) (r : Markup), m.radd v = some (.ok r) → r.cls = m.cls) ∧
    (∀ (m : Markup) (n : Int), (m.mul n).cls = m.cls) ∧
    (∀ (m : Markup) (xs : List PyVal) (r : Markup), m.join xs = .ok r → r.cls = m.cls) ∧
    (∀ (m : Markup) (sep : Option (List Char)) (ms : Int) (x : Markup),
        x ∈ m.split sep ms → x.cls = m.cls) ∧
    (∀ (m : Markup) (sep : List Char),
        (m.partition sep).1.cls = m.cls ∧ (m.partition sep).2.1.cls = m.cls ∧
        (m.partition sep).2.2.cls = m.cls ∧ (m.rpartition sep).1.cls = m.cls ∧
        (m.rpartition sep).2.1.cls = m.cls ∧ (m.rpartition sep).2.2.cls = m.cls) ∧
    (∀ (m : Markup) (k : StrKey) (r : Markup), m.getitem k = .ok r → r.cls = m.cls) ∧
    (∀ m : Markup, m.upper.cls = m.cls ∧ m.lower.cls = m.cls ∧ m.capitalize.cls = m.cls) ∧
    (∀ (m : Markup) (chars : Option (List Char)),
        (m.strip chars).cls = m.cls ∧ (m.lstrip chars).cls = m.cls ∧
        (m.rstrip chars).cls = m.cls) ∧
    (∀ (m : Markup) (w : Int) (f : PyVal) (r : Markup),
        (m.ljust w f = .ok r → r.cls = m.cls) ∧ (m.rjust w f = .ok r → r.cls = m.cls)) ∧
    (∀ (m : Markup) (old : List Char) (new : PyVal) (cnt : Int) (r : Markup),
        m.replace old new cnt = .ok r → r.cls = m.cls) ∧
    (∀ (m : Markup) (args : List PyVal) (kwargs : List (List Char × PyVal)) (r : Markup),
        m.format args kwargs = .ok r → r.cls = m.cls) ∧
    (∀ (m : Markup) (v : PyVal) (r : Markup), m.mod v = .ok r → r.cls = m.cls) := by
  refine ⟨?_, ?_, ?_, ?_, ?_, ?_, ?_, ?_, ?_, ?_, ?_, ?_, ?_, ?_⟩
  · intro c v r h
    exact escapeCls_cls h
  · intro m v r h
    unfold Markup.add at h
    split at h
    · rename_i hcond
      injection h with h
      split at h
      · cases h
      · rename_i e he
        exact okCls h
    · cases h
  · intro m v r h
    unfold Markup.radd at h
    split at h
    · rename_i hcond
      injection h with h
      split at h
      · cases h
      · rename_i e he
        unfold Markup.add at h
        simp only [isStr, hasHtml, Bool.true_or, if_pos] at h
        split at h
        · cases h
        · have h2 := okCls h
          rw [h2]
          exact escapeCls_cls he
    · cases h
  · intro m n; rfl
  · intro m xs r h
    unfold Markup.join at h
    split at h
    · cases h
    · exact okCls h
  · intro m sep ms x hx
    cases sep <;> simp only [Markup.split, List.mem_map] at hx <;>
      obtain ⟨v, -, rfl⟩ := hx <;> rfl
  · intro m sep
    refine ⟨?_, ?_, ?_, ?_, ?_, ?_⟩ <;>
      simp only [Markup.partition, Markup.rpartition]
  · intro m k r h
    unfold Markup.getitem at h
    split at h
    · cases h
    · exact okCls h
  · intro m; exact ⟨rfl, rfl, by unfold Markup.capitalize; split <;> rfl⟩
  · intro m chars; exact ⟨rfl, rfl, rfl⟩
  · intro m w f r
    constructor <;> intro h
    · unfold Markup.ljust at h
      split at h
      · cases h
      · split at h
        · cases h
        · exact okCls h
    · unfold Markup.rjust at h
      split at h
      · cases h
      · split at h
        · cases h
        · exact okCls h
  · intro m old new cnt r h
    unfold Markup.replace at h
    split at h
    · cases h
    · exact okCls h
  · intro m args kwargs r h
    unfold Markup.format at h
    split at h
    · cases h
    · exact okCls h
  · intro m v r h
    unfold Markup.mod at h
    split at h
    · split at h
      · cases h
      · exact okCls h
    · split at h
      · split at h
        · cases h
        · exact okCls h
      · split at h
        · cases h
        · exact okCls h

/-- Witness for C10: every class-preserving conjunct applied on concrete
inputs of the subclass tagged `5`. -/
theorem subclass_preservation_witness :
    (Markup.mk 5 ['&', 'l', 't', ';']).cls = 5 ∧
    (Markup.mk 5 ['a', '&', 'l', 't', ';']).cls = 5 ∧
    (Markup.mk 5 ['&', 'l', 't', ';', 'a']).cls = 5 ∧
    (Markup.mk 5 ['a']).cls = 5 ∧
    (Markup.mk 5 ['b']).cls = 5 := by
  obtain ⟨h1, h2, h3, _h4, h5, h6, _h7, h8, _h9, _h10, h11, h12, h13, h14⟩ :=
    subclass_preservation
  refine ⟨h1 5 (.vstr ['<']) ⟨5, ['&', 'l', 't', ';']⟩ rfl, ?_, ?_, ?_, ?_⟩
  · exact h2 ⟨5, ['a']⟩ (.vstr ['<']) ⟨5, ['a', '&', 'l', 't', ';']⟩ rfl
  · exact h3 ⟨5, ['a']⟩ (.vstr ['<']) ⟨5, ['&', 'l', 't', ';', 'a']⟩ rfl
  · exact h6 ⟨5, ['a', ' ', 'b']⟩ none (-1) ⟨5, ['a']⟩ (by decide)
  · have hj := h5 ⟨5, ['b']⟩ [] ⟨5, []⟩ rfl
    have hg := h8 ⟨5, ['a', 'b']⟩ (.idx 0) ⟨5, ['a']⟩ rfl
    have hl := (h11 ⟨5, ['a']⟩ 2 (.vstr [' ']) ⟨5, ['a', ' ']⟩).1 rfl
    have hr := h12 ⟨5, ['a']⟩ ['a'] (.vstr ['b']) (-1) ⟨5, ['b']⟩ (by rfl)
    have hf := h13 ⟨5, ['\x7b', '\x7d']⟩ [.vstr ['<']] []
      ⟨5, ['&', 'l', 't', ';']⟩ rfl
    have hm := h14 ⟨5, ['%', 's']⟩ (.vstr ['b']) ⟨5, ['b']⟩ rfl
    exact hm

end MarkupSafe
